import Mathlib

/-!
Shallow embedding of the watermark rendering core of Photo-Watermark2
(`src/image_processor.py`, `src/config_manager.py`).

Conventions of the embedding:
* Python floats are modelled as rationals (`ℚ`); `int(x)` is truncation
  toward zero (`truncRat`), `x // y` on non-negative ints is `Nat` division.
* A PIL image is a mode tag, a width, a height and a total pixel function;
  pixel values out of bounds are junk and never relied upon.
* Library raster calls whose pixel output the Python code does not compute
  itself (glyph rasterisation `draw.text`, `rotate`, the italic affine
  `transform`, LANCZOS resampling) are supplied by an `Env` record of
  environment functions, together with the outcome of every fallible
  library call (font loading, text measurement, file I/O).  Each draw call
  the code issues is additionally recorded as a `DrawOp` in a trace, so
  that theorems can speak about the offsets and fill colors of the draws
  that survive into the returned layer.
* `Image.new` with a negative size raises `ValueError` in Pillow; the one
  place the code can produce a negative size (the rotation temp canvas,
  lines 266-275 of `image_processor.py`) is modelled by returning `none`.
-/

namespace PhotoWatermark

/-- Python `int(q)` on a rational: truncation toward zero. -/
def truncRat (q : ℚ) : ℤ := if 0 ≤ q then ⌊q⌋ else -⌊-q⌋

/-- One RGBA pixel; channels are 0..255 in every image the pipeline builds. -/
structure Pixel where
  r : ℕ
  g : ℕ
  b : ℕ
  a : ℕ
deriving DecidableEq, Repr

/-- PIL image mode, as used by the pipeline (`'RGBA'` or `'RGB'`). -/
inductive Mode
  | RGBA
  | RGB
deriving DecidableEq, Repr

/-- A PIL image: mode tag, size, and pixel data as a total function. -/
structure Image where
  mode : Mode
  width : ℕ
  height : ℕ
  px : ℕ → ℕ → Pixel

/-- The `WatermarkConfig` dataclass of `config_manager.py`, with its schema
defaults.  Python ints are `ℤ`, floats are `ℚ`, strings are `String`. -/
structure WatermarkConfig where
  watermark_type : String := "text"
  text_content : String := "水印文字"
  font_family : String := "Arial"
  font_size : ℤ := 24
  font_bold : Bool := false
  font_italic : Bool := false
  font_color : String := "#000000"
  image_path : String := ""
  image_scale : ℚ := 1
  opacity : ℚ := 1/2
  position_x : ℚ := 1/2
  position_y : ℚ := 1/2
  rotation : ℚ := 0
  shadow_enabled : Bool := false
  shadow_offset_x : ℤ := 2
  shadow_offset_y : ℤ := 2
  shadow_blur : ℤ := 3
  shadow_color : String := "#000000"
  stroke_enabled : Bool := false
  stroke_width : ℤ := 1
  stroke_color : String := "#FFFFFF"
deriving DecidableEq, Repr

/-- An RGB color triple, the result of `_parse_color`. -/
structure RGB where
  r : ℕ
  g : ℕ
  b : ℕ
deriving DecidableEq, Repr

/-- Value of one hex digit, or `none` (the failing `int(_, 16)` branch). -/
def hexDigit (c : Char) : Option ℕ :=
  if '0' ≤ c ∧ c ≤ '9' then some (c.toNat - '0'.toNat)
  else if 'a' ≤ c ∧ c ≤ 'f' then some (c.toNat - 'a'.toNat + 10)
  else if 'A' ≤ c ∧ c ≤ 'F' then some (c.toNat - 'A'.toNat + 10)
  else none

/-- Python `int(s, 16)` on a two-character slice of the color string,
modelled as a plain pair of hex digits.  Python's `int` additionally
tolerates a sign or whitespace inside a slice (so e.g. `"#+1+2+3"`
yields `(1, 2, 3)` where this model falls back to black); that
difference only moves some strings between the parsed and the
fallback-to-black classes, and no theorem in this development depends on
the parsed RGB values — only on fill alphas, modes and dimensions. -/
def hexPair (c0 c1 : Char) : Option ℕ :=
  match hexDigit c0, hexDigit c1 with
  | some x, some y => some (16 * x + y)
  | _, _ => none

/-- A literal `"#"`, kept as a named constant. -/
def hashStr : String := "#"

/-- `ImageProcessor._parse_color` (lines 540-551): a `#RRGGBB` string parses
to its RGB triple; everything else (wrong length after stripping leading
`#`s, non-hex digits, no leading `#`) falls back to black `(0,0,0)`. -/
def parse_color (s : String) : RGB :=
  if s.startsWith hashStr then
    match s.toList.dropWhile (fun c => c = '#') with
    | [c0, c1, c2, c3, c4, c5] =>
      match hexPair c0 c1, hexPair c2 c3, hexPair c4 c5 with
      | some r, some g, some b => ⟨r, g, b⟩
      | _, _, _ => ⟨0, 0, 0⟩
    | _ => ⟨0, 0, 0⟩
  else ⟨0, 0, 0⟩

/-- Which font object `add_text_watermark` ended up with. -/
inductive Font
  | truetype
  | chinese
  | defaultFont
deriving DecidableEq, Repr

/-- A fill tuple passed to `draw.text` — RGB plus alpha, Python ints. -/
structure Fill where
  r : ℤ
  g : ℤ
  b : ℤ
  a : ℤ
deriving DecidableEq, Repr

/-- Which effect a recorded draw call belongs to.  Stroke and bold carry
the pixel offset `(dx, dy)` from the glyph anchor used for that draw. -/
inductive OpKind
  | stroke (dx dy : ℤ)
  | shadow
  | bold (dx dy : ℤ)
  | main
deriving DecidableEq, Repr

/-- One recorded `draw.text` call: absolute position on its surface, the
text, the font (or `none` for the no-font fallback draw), the fill, and
which effect issued it. -/
structure DrawOp where
  x : ℤ
  y : ℤ
  text : String
  font : Option Font
  fill : Fill
  kind : OpKind
deriving DecidableEq, Repr

/-- Environment: outcome of every fallible library call and the pixel
semantics of every raster primitive the Python code delegates to PIL.
A theorem quantified over `Env` holds for every such outcome. -/
structure Env where
  /-- `ImageFont.truetype(font_path, size)` succeeds. -/
  truetypeOk : Bool
  /-- `ImageFont.load_default()` succeeds (deterministic per call). -/
  defaultOk : Bool
  /-- the system chinese-font probing loop (lines 98-131) ends with a font. -/
  chineseOk : Bool
  /-- `draw.textbbox` outcome: `some (width, height)` or an exception. -/
  measureBBox : Option (ℕ × ℕ)
  /-- legacy `draw.textsize` outcome, tried when `textbbox` raises. -/
  measureSize : Option (ℕ × ℕ)
  /-- `math.cos(math.radians(abs(rotation)))` as computed by the library. -/
  cosAbs : ℚ
  /-- `math.sin(math.radians(abs(rotation)))` as computed by the library. -/
  sinAbs : ℚ
  /-- pixel effect of one `draw.text` call on one pixel of its surface. -/
  effect : DrawOp → ℕ → ℕ → Pixel → Pixel
  /-- `Image.rotate(angle, expand=True, fillcolor=transparent)`. -/
  rotate : Image → ℚ → Image
  /-- the italic affine shear `transform` (lines 226-229, 340-343). -/
  shear : Image → Image
  /-- LANCZOS resampled pixel content at a given target size. -/
  resample : ℕ → ℕ → Image → ℕ → ℕ → Pixel
  /-- `Image.open` + RGBA conversion of the watermark image file, or failure. -/
  loadWatermark : Option Image
  /-- the `save` call at export succeeds (no disk/permission error). -/
  saveOk : Bool

/-- Font resolution of `add_text_watermark` (lines 74-139): try
`truetype` on the configured path (falling back to the default font on
failure), then the chinese-font probing loop, then the default font again;
`none` means even `load_default` raised every time. -/
def resolveFont (env : Env) (fontPath : String) : Option Font :=
  let f1 : Option Font :=
    if fontPath ≠ "" then
      if env.truetypeOk then some Font.truetype
      else if env.defaultOk then some Font.defaultFont else none
    else
      if env.defaultOk then some Font.defaultFont else none
  let f2 : Option Font :=
    match f1 with
    | some f => some f
    | none => if env.chineseOk then some Font.chinese else none
  match f2 with
  | some f => some f
  | none => if env.defaultOk then some Font.defaultFont else none

/-- Text measurement (lines 141-160): `textbbox`, then `textsize`, then
the estimate `len(text) * 12` by `20`; the estimate is also used when no
font at all could be loaded. -/
def measureText (env : Env) (font : Option Font) (text : String) : ℕ × ℕ :=
  match font with
  | some _ =>
    match env.measureBBox with
    | some wh => wh
    | none =>
      match env.measureSize with
      | some wh => wh
      | none => (text.length * 12, 20)
  | none => (text.length * 12, 20)

/-- The anchor formula of lines 162-164 and 491-493:
`int((canvasW - w) * posX), int((canvasH - h) * posY)`. -/
def anchorPos (w h tw th : ℕ) (px py : ℚ) : ℤ × ℤ :=
  (truncRat ((((w : ℤ) - (tw : ℤ) : ℤ) : ℚ) * px),
   truncRat ((((h : ℤ) - (th : ℤ) : ℤ) : ℚ) * py))

/-- `Image.new('RGBA', (w, h), (255, 255, 255, 0))`. -/
def newRGBA (w h : ℕ) : Image :=
  ⟨Mode.RGBA, w, h, fun _ _ => ⟨255, 255, 255, 0⟩⟩

/-- Apply one recorded `draw.text` call to a surface. -/
def drawOp (env : Env) (img : Image) (op : DrawOp) : Image :=
  { img with px := fun x y => env.effect op x y (img.px x y) }

/-- Apply a sequence of draw calls in order. -/
def drawOps (env : Env) (img : Image) (ops : List DrawOp) : Image :=
  ops.foldl (drawOp env) img

/-- `(c * (255 - m) + d * m) / 255`: PIL's mask blend of background channel
`c` toward source channel `d` under mask value `m` (integer division). -/
def blend255 (c d m : ℕ) : ℕ := (c * (255 - m) + d * m) / 255

/-- `dst.paste(src, (posx, posy))` without a mask: pixels inside the pasted
rectangle are replaced, everything outside the canvas is clipped. -/
def pasteFull (dst src : Image) (posx posy : ℤ) : Image :=
  { dst with px := fun x y =>
      if posx ≤ (x : ℤ) ∧ (x : ℤ) < posx + src.width ∧
         posy ≤ (y : ℤ) ∧ (y : ℤ) < posy + src.height then
        src.px ((x : ℤ) - posx).toNat ((y : ℤ) - posy).toNat
      else dst.px x y }

/-- `dst.paste(src, (posx, posy), src)` — paste using the source's own
alpha as mask: each channel (alpha included) is mask-blended. -/
def pasteMask (dst src : Image) (posx posy : ℤ) : Image :=
  { dst with px := fun x y =>
      if posx ≤ (x : ℤ) ∧ (x : ℤ) < posx + src.width ∧
         posy ≤ (y : ℤ) ∧ (y : ℤ) < posy + src.height then
        let s := src.px ((x : ℤ) - posx).toNat ((y : ℤ) - posy).toNat
        let d := dst.px x y
        ⟨blend255 d.r s.r s.a, blend255 d.g s.g s.a,
         blend255 d.b s.b s.a, blend255 d.a s.a s.a⟩
      else dst.px x y }

/-- Straight-alpha source-over of one pixel (`Image.alpha_composite`):
a fully transparent source leaves the destination pixel unchanged. -/
def alphaCompositePx (d s : Pixel) : Pixel :=
  if s.a = 0 then d
  else
    let oa := s.a + d.a * (255 - s.a) / 255
    ⟨(s.r * s.a + d.r * d.a * (255 - s.a) / 255) / max oa 1,
     (s.g * s.a + d.g * d.a * (255 - s.a) / 255) / max oa 1,
     (s.b * s.a + d.b * d.a * (255 - s.a) / 255) / max oa 1,
     oa⟩

/-- `dst.alpha_composite(src)` for two same-sized RGBA canvases. -/
def alphaComposite (dst src : Image) : Image :=
  { dst with px := fun x y => alphaCompositePx (dst.px x y) (src.px x y) }

/-- Flattening onto an opaque white RGB background using the image's own
alpha as blend mask (lines 461-464 and 525-528). -/
def flattenWhite (img : Image) : Image :=
  { mode := Mode.RGB, width := img.width, height := img.height,
    px := fun x y =>
      let p := img.px x y
      ⟨blend255 255 p.r p.a, blend255 255 p.g p.a, blend255 255 p.b p.a, 255⟩ }

/-- The integers `a, a+1, ..., b` (Python `range(a, b + 1)`). -/
def intRange (a b : ℤ) : List ℤ :=
  (List.range (b + 1 - a).toNat).map fun i => a + i

/-- All offsets of the square `[-w, w] × [-w, w]`, x-major like the
nested Python loops. -/
def squareOffsets (w : ℤ) : List (ℤ × ℤ) :=
  (intRange (-w) w).flatMap fun dx => (intRange (-w) w).map fun dy => (dx, dy)

/-- First-pass stroke offsets (lines 175-177): the whole square minus the
center — `x_offset != 0 or y_offset != 0`. -/
def filledSquareOffsets (w : ℤ) : List (ℤ × ℤ) :=
  (squareOffsets w).filter fun p => decide (p.1 ≠ 0 ∨ p.2 ≠ 0)

/-- Perimeter-only stroke offsets (lines 303-306, 356-359, 415-418):
`abs(x_offset) == stroke_width or abs(y_offset) == stroke_width`. -/
def perimeterOffsets (w : ℤ) : List (ℤ × ℤ) :=
  (squareOffsets w).filter fun p => decide (|p.1| = w ∨ |p.2| = w)

/-- Stroke draws over the filled square of offsets, at full alpha. -/
def strokeOpsFilled (bx byy : ℤ) (text : String) (font : Option Font)
    (sc : RGB) (w : ℤ) : List DrawOp :=
  (filledSquareOffsets w).map fun d =>
    ⟨bx + d.1, byy + d.2, text, font, ⟨sc.r, sc.g, sc.b, 255⟩, OpKind.stroke d.1 d.2⟩

/-- Stroke draws over the perimeter offsets only, at full alpha. -/
def strokeOpsPerim (bx byy : ℤ) (text : String) (font : Option Font)
    (sc : RGB) (w : ℤ) : List DrawOp :=
  (perimeterOffsets w).map fun d =>
    ⟨bx + d.1, byy + d.2, text, font, ⟨sc.r, sc.g, sc.b, 255⟩, OpKind.stroke d.1 d.2⟩

/-- The one shadow draw, offset by the configured shadow offset, full alpha. -/
def shadowOp (bx byy ox oy : ℤ) (text : String) (font : Option Font)
    (sc : RGB) : DrawOp :=
  ⟨bx + ox, byy + oy, text, font, ⟨sc.r, sc.g, sc.b, 255⟩, OpKind.shadow⟩

/-- Bold simulation offsets of the first (non-rotated) pass, lines 213-220
and 242-249: four double-diagonals then the four unit compass points. -/
def boldOffsetsA : List (ℤ × ℤ) :=
  [(-2, -2), (2, -2), (-2, 2), (2, 2), (-1, 0), (1, 0), (0, -1), (0, 1)]

/-- Bold simulation offsets `directions` of the rotation and redraw passes,
lines 325, 379, 438: unit diagonals then unit compass points. -/
def boldOffsetsB : List (ℤ × ℤ) :=
  [(-1, -1), (1, -1), (-1, 1), (1, 1), (-1, 0), (1, 0), (0, -1), (0, 1)]

/-- The bold-simulation draws at a list of offsets. -/
def boldOps (offs : List (ℤ × ℤ)) (bx byy : ℤ) (text : String)
    (font : Option Font) (fill : Fill) : List DrawOp :=
  offs.map fun d => ⟨bx + d.1, byy + d.2, text, font, fill, OpKind.bold d.1 d.2⟩

/-- The primary glyph draw. -/
def mainOp (bx byy : ℤ) (text : String) (font : Option Font) (fill : Fill) :
    DrawOp :=
  ⟨bx, byy, text, font, fill, OpKind.main⟩

/-- First-pass stroke and shadow draws (lines 170-193): filled-square
stroke offsets, then the shadow draw, each at full alpha. -/
def opsPhaseA (cfg : WatermarkConfig) (posX posY : ℤ) (text : String)
    (font : Option Font) : List DrawOp :=
  (if cfg.stroke_enabled then
    strokeOpsFilled posX posY text font (parse_color cfg.stroke_color) cfg.stroke_width
   else []) ++
  (if cfg.shadow_enabled then
    [shadowOp posX posY cfg.shadow_offset_x cfg.shadow_offset_y text font
      (parse_color cfg.shadow_color)]
   else [])

/-- First-pass main glyph drawing with a loaded font (lines 196-252):
either the italic path (draw bold+main into a padded temp image, shear
it, paste it at `(posX - 20, posY - 10)` with itself as mask) or direct
bold+main draws.  Returns the draw calls issued and the updated
watermark layer.  The no-font fallback draw of line 255 is not a branch
here: `font` is `None` only after `ImageFont.load_default()` raised, and
`draw.text` without a usable font re-invokes `load_default` and raises
uncaught — that path is the `none` of `renderedOf`. -/
def phaseB (env : Env) (cfg : WatermarkConfig) (afterA : Image)
    (posX posY : ℤ) (text : String) (f : Font)
    (mainFill italicFill : Fill) (tw th : ℕ) : List DrawOp × Image :=
  if cfg.font_italic then
    let opsT :=
      (if cfg.font_bold then boldOps boldOffsetsA 40 20 text (some f) italicFill else []) ++
      [mainOp 40 20 text (some f) italicFill]
    let temp := drawOps env (newRGBA (tw + 80) (th + 40)) opsT
    (opsT, pasteMask afterA (env.shear temp) (posX - 20) (posY - 10))
  else
    let opsM :=
      (if cfg.font_bold then boldOps boldOffsetsA posX posY text (some f) mainFill else []) ++
      [mainOp posX posY text (some f) mainFill]
    (opsM, drawOps env afterA opsM)

/-- The perimeter-stroke / shadow / bold / main sequence shared by the
rotation paths (lines 298-337, 351-391) and the stroke redraw path
(lines 405-453), anchored at `(bx, byy)`. -/
def effectOps (cfg : WatermarkConfig) (text : String) (font : Option Font)
    (fill : Fill) (bx byy : ℤ) : List DrawOp :=
  (if cfg.stroke_enabled then
    strokeOpsPerim bx byy text font (parse_color cfg.stroke_color) cfg.stroke_width
   else []) ++
  (if cfg.shadow_enabled then
    [shadowOp bx byy cfg.shadow_offset_x cfg.shadow_offset_y text font
      (parse_color cfg.shadow_color)]
   else []) ++
  (if cfg.font_bold then boldOps boldOffsetsB bx byy text font fill else []) ++
  [mainOp bx byy text font fill]

/-- Python `n // 2` on a non-negative int, as an integer coordinate. -/
def intCenter (n : ℕ) : ℤ := ((n / 2 : ℕ) : ℤ)

/-- Python `str.upper()` on an ASCII format tag. -/
def pyUpper (s : String) : String := String.mk (s.data.map Char.toUpper)

/-- The rotation path (lines 258-401): a fresh square temp canvas of side
`max(int(tw*cos+th*sin)+100, int(th*cos+tw*sin)+100)`, all effects drawn
centered on it (through the italic shear sub-path when italic), rotated
about its center, and pasted so its center lands on the text center.
`none` models the `ValueError` Pillow raises from `Image.new` when the
computed side is negative. -/
def rotateBranch (env : Env) (cfg : WatermarkConfig) (W H : ℕ)
    (text : String) (font : Option Font) (mainFill italicFill : Fill)
    (tw th : ℕ) (posX posY : ℤ) : Option (List DrawOp × Image) :=
  let tmpW := truncRat ((tw : ℚ) * env.cosAbs + (th : ℚ) * env.sinAbs) + 100
  let tmpH := truncRat ((th : ℚ) * env.cosAbs + (tw : ℚ) * env.sinAbs) + 100
  let side := max tmpW tmpH
  if side < 0 then none else
  let tcx := posX + ((tw / 2 : ℕ) : ℤ)
  let tcy := posY + ((th / 2 : ℕ) : ℤ)
  let tc : ℤ := ((side.toNat / 2 : ℕ) : ℤ)
  let pair : List DrawOp × Image :=
    if cfg.font_italic then
      let ops := effectOps cfg text font italicFill
        (intCenter (tw + 50) - ((tw / 2 : ℕ) : ℤ))
        (intCenter (th + 50) - ((th / 2 : ℕ) : ℤ))
      let iimg := env.shear (drawOps env (newRGBA (tw + 50) (th + 50)) ops)
      (ops, pasteMask (newRGBA side.toNat side.toNat) iimg
        (tc - ((iimg.width / 2 : ℕ) : ℤ)) (tc - ((iimg.height / 2 : ℕ) : ℤ)))
    else
      let ops := effectOps cfg text font mainFill
        (tc - ((tw / 2 : ℕ) : ℤ)) (tc - ((th / 2 : ℕ) : ℤ))
      (ops, drawOps env (newRGBA side.toNat side.toNat) ops)
  let rotated := env.rotate pair.2 cfg.rotation
  some (pair.1, pasteMask (newRGBA W H) rotated
    (tcx - ((rotated.width / 2 : ℕ) : ℤ)) (tcy - ((rotated.height / 2 : ℕ) : ℤ)))

/-- Result record of `add_text_watermark`: the measured text size, the
anchor of lines 162-164, the draw calls surviving into the returned
layer, the watermark layer, the RGBA composite of line 458, and the image
the function returns. -/
structure TextRender where
  tw : ℕ
  th : ℕ
  pos : ℤ × ℤ
  trace : List DrawOp
  layer : Image
  composite : Image
  result : Image

/-- The font `add_text_watermark` resolves for a given config (line 75-139). -/
def theFont (env : Env) (cfg : WatermarkConfig) : Option Font :=
  resolveFont env cfg.font_family

/-- The measured `(text_width, text_height)` (lines 141-160). -/
def theSize (env : Env) (cfg : WatermarkConfig) : ℕ × ℕ :=
  measureText env (theFont env cfg) cfg.text_content

/-- The `(pos_x, pos_y)` anchor of lines 162-164. -/
def thePos (env : Env) (image : Image) (cfg : WatermarkConfig) : ℤ × ℤ :=
  anchorPos image.width image.height (theSize env cfg).1 (theSize env cfg).2
    cfg.position_x cfg.position_y

/-- `color_with_opacity` of line 168: parsed font color with alpha
`int(255 * opacity)`. -/
def mainFillOf (cfg : WatermarkConfig) : Fill :=
  ⟨(parse_color cfg.font_color).r, (parse_color cfg.font_color).g,
   (parse_color cfg.font_color).b, truncRat (255 * cfg.opacity)⟩

/-- `italic_color_with_opacity` of lines 205-207: alpha
`min(255, int(255 * opacity * 1.05 + 80))` (the float literal `1.05` as
the rational `21/20`). -/
def italicFillOf (cfg : WatermarkConfig) : Fill :=
  ⟨(parse_color cfg.font_color).r, (parse_color cfg.font_color).g,
   (parse_color cfg.font_color).b,
   min 255 (truncRat (255 * cfg.opacity * (21 / 20) + 80))⟩

/-- The watermark layer construction of lines 166-453 together with the
draw calls that survive into it: the rotation path (which discards the
first-pass layer, lines 258-264), the stroke redraw path (which also
discards it, lines 405-408), or the first-pass layer itself.  When no
font at all could be loaded (`ImageFont.load_default` raised), every
`draw.text` of the first pass — the stroke draws of line 178, the shadow
draw of line 188, and in any case the fallback main draw of line 255 —
re-invokes `load_default` and raises uncaught, so no layer is ever
returned: `none`. -/
def renderedOf (env : Env) (image : Image) (config : WatermarkConfig) :
    Option (List DrawOp × Image) :=
  let text := config.text_content
  let font := theFont env config
  let p := thePos env image config
  if config.rotation ≠ 0 ∧ font.isSome = true then
    rotateBranch env config image.width image.height text font
      (mainFillOf config) (italicFillOf config)
      (theSize env config).1 (theSize env config).2 p.1 p.2
  else if config.stroke_enabled = true ∧ font.isSome = true then
    let ops := effectOps config text font (mainFillOf config) p.1 p.2
    some (ops, drawOps env (newRGBA image.width image.height) ops)
  else
    match font with
    | none => none
    | some f =>
      let afterA := drawOps env (newRGBA image.width image.height)
        (opsPhaseA config p.1 p.2 text (some f))
      let pb := phaseB env config afterA p.1 p.2 text f
        (mainFillOf config) (italicFillOf config)
        (theSize env config).1 (theSize env config).2
      some (opsPhaseA config p.1 p.2 text (some f) ++ pb.1, pb.2)

/-- The compositing tail of `add_text_watermark` (lines 455-466): paste
the source onto a fresh RGBA canvas, alpha-composite the watermark layer,
and flatten to RGB on white when the result is RGBA (it always is). -/
def finishRender (env : Env) (image : Image) (config : WatermarkConfig)
    (tr : List DrawOp × Image) : TextRender :=
  let base := pasteFull (newRGBA image.width image.height) image 0 0
  let composite := alphaComposite base tr.2
  ⟨(theSize env config).1, (theSize env config).2, thePos env image config,
   tr.1, tr.2, composite,
   if composite.mode = Mode.RGBA then flattenWhite composite else composite⟩

/-- `ImageProcessor.add_text_watermark` (lines 65-466).  `none` models an
uncaught exception: the `ValueError` of the rotation path's negative
temp canvas, or the draw calls issued when even `ImageFont.load_default`
raised (see `renderedOf`).  Every caught failure (font loading,
measurement, color parsing) degrades to its fallback inside. -/
def add_text_watermark (env : Env) (image : Image)
    (config : WatermarkConfig) : Option TextRender :=
  (renderedOf env image config).map (finishRender env image config)

/-- Per-pixel alpha multiplication of `ImageEnhance.Brightness` on the
alpha band (lines 482-485), clamped to 0..255. -/
def scaleAlpha (img : Image) (o : ℚ) : Image :=
  { img with px := fun x y =>
      let p := img.px x y
      { p with a := min 255 (truncRat ((p.a : ℚ) * o)).toNat } }

/-- `Image.resize((w, h), LANCZOS)`: fails on a non-positive target size
(per spec §7, "non-positive scale — the resize fails"); on success the
resampled content is supplied by the environment. -/
def resizeImage (env : Env) (img : Image) (w h : ℤ) : Option Image :=
  if w ≤ 0 ∨ h ≤ 0 then none
  else some ⟨img.mode, w.toNat, h.toNat, env.resample w.toNat h.toNat img⟩

/-- Result record of `add_image_watermark`: the paste position and
watermark size actually used (when the success path was taken) and the
returned image. -/
structure ImageRender where
  pastePos : Option (ℤ × ℤ)
  wmW : ℕ
  wmH : ℕ
  result : Image

/-- `ImageProcessor.add_image_watermark` (lines 468-503): load the
watermark image, scale it, fade it, rotate it, paste it at the anchor;
any failure is caught and a copy of the untouched source is returned. -/
def add_image_watermark (env : Env) (image : Image)
    (config : WatermarkConfig) : ImageRender :=
  match env.loadWatermark with
  | none => ⟨none, 0, 0, image⟩
  | some wm0 =>
    let nw := truncRat ((wm0.width : ℚ) * config.image_scale)
    let nh := truncRat ((wm0.height : ℚ) * config.image_scale)
    match resizeImage env wm0 nw nh with
    | none => ⟨none, 0, 0, image⟩
    | some wm1 =>
      let wm2 := if config.opacity < 1 then scaleAlpha wm1 config.opacity else wm1
      let wm3 := if config.rotation ≠ 0 then env.rotate wm2 config.rotation else wm2
      let p := anchorPos image.width image.height wm3.width wm3.height
        config.position_x config.position_y
      let base := pasteFull (newRGBA image.width image.height) image 0 0
      ⟨some p, wm3.width, wm3.height, pasteMask base wm3 p.1 p.2⟩

/-- `ImageProcessor.process_image` (lines 505-511). -/
def process_image (env : Env) (image : Image) (config : WatermarkConfig) :
    Option Image :=
  if config.watermark_type = "text" then
    (add_text_watermark env image config).map TextRender.result
  else if config.watermark_type = "image" ∧ config.image_path ≠ "" then
    some (add_image_watermark env image config).result
  else some image

/-- `ImageProcessor.export_image` (lines 513-538): optional resize, then
JPEG (flatten RGBA onto white, save) or PNG (force RGBA, save); any
failure is caught and reported as `false`.  Returns the reported boolean
and the encoded image content when the save succeeded. -/
def export_image (env : Env) (image : Image) (fileFormat : String)
    (quality : ℤ) (resize : Option (ℕ × ℕ)) : Bool × Option Image :=
  let e0 := match resize with
    | some wh => ⟨image.mode, wh.1, wh.2, env.resample wh.1 wh.2 image⟩
    | none => image
  if pyUpper fileFormat = "JPEG" then
    let e1 := if e0.mode = Mode.RGBA then flattenWhite e0 else e0
    if env.saveOk then (true, some e1) else (false, none)
  else
    let e1 := if e0.mode = Mode.RGBA then e0 else { e0 with mode := Mode.RGBA }
    if env.saveOk then (true, some e1) else (false, none)

/-- A primitive JSON value as produced by `dataclasses.asdict` +
`json.dump` for the flat template schema (strings, numbers, booleans).
Python floats round-trip exactly through `json`, so numbers are `ℚ`. -/
inductive JValue
  | str (s : String)
  | num (q : ℚ)
  | bool (b : Bool)
deriving DecidableEq, Repr

/-- `dataclasses.asdict(config)` serialised in field order, as written by
`ConfigManager.save_template` (lines 105-115). -/
def configToJson (c : WatermarkConfig) : List (String × JValue) :=
  [("watermark_type", JValue.str c.watermark_type),
   ("text_content", JValue.str c.text_content),
   ("font_family", JValue.str c.font_family),
   ("font_size", JValue.num c.font_size),
   ("font_bold", JValue.bool c.font_bold),
   ("font_italic", JValue.bool c.font_italic),
   ("font_color", JValue.str c.font_color),
   ("image_path", JValue.str c.image_path),
   ("image_scale", JValue.num c.image_scale),
   ("opacity", JValue.num c.opacity),
   ("position_x", JValue.num c.position_x),
   ("position_y", JValue.num c.position_y),
   ("rotation", JValue.num c.rotation),
   ("shadow_enabled", JValue.bool c.shadow_enabled),
   ("shadow_offset_x", JValue.num c.shadow_offset_x),
   ("shadow_offset_y", JValue.num c.shadow_offset_y),
   ("shadow_blur", JValue.num c.shadow_blur),
   ("shadow_color", JValue.str c.shadow_color),
   ("stroke_enabled", JValue.bool c.stroke_enabled),
   ("stroke_width", JValue.num c.stroke_width),
   ("stroke_color", JValue.str c.stroke_color)]

/-- The keys `hasattr(config, key)` accepts — the dataclass fields. -/
def knownKeys : List String :=
  ["watermark_type", "text_content", "font_family", "font_size", "font_bold",
   "font_italic", "font_color", "image_path", "image_scale", "opacity",
   "position_x", "position_y", "rotation", "shadow_enabled",
   "shadow_offset_x", "shadow_offset_y", "shadow_blur", "shadow_color",
   "stroke_enabled", "stroke_width", "stroke_color"]

/-- One step of the `for key, value in data.items(): if hasattr(config,
key): setattr(config, key, value)` loop of `load_template` (lines
124-128).  Unknown keys are skipped.  Values are taken at their schema
types (integer JSON numbers land in the int fields via `⌊·⌋`, the
identity on every value `asdict` can produce; Python's untyped `setattr`
of an off-schema value is outside this model). -/
def applyEntry (c : WatermarkConfig) (kv : String × JValue) : WatermarkConfig :=
  if kv.1 = "watermark_type" then
    match kv.2 with | JValue.str v => { c with watermark_type := v } | _ => c
  else if kv.1 = "text_content" then
    match kv.2 with | JValue.str v => { c with text_content := v } | _ => c
  else if kv.1 = "font_family" then
    match kv.2 with | JValue.str v => { c with font_family := v } | _ => c
  else if kv.1 = "font_size" then
    match kv.2 with | JValue.num v => { c with font_size := ⌊v⌋ } | _ => c
  else if kv.1 = "font_bold" then
    match kv.2 with | JValue.bool v => { c with font_bold := v } | _ => c
  else if kv.1 = "font_italic" then
    match kv.2 with | JValue.bool v => { c with font_italic := v } | _ => c
  else if kv.1 = "font_color" then
    match kv.2 with | JValue.str v => { c with font_color := v } | _ => c
  else if kv.1 = "image_path" then
    match kv.2 with | JValue.str v => { c with image_path := v } | _ => c
  else if kv.1 = "image_scale" then
    match kv.2 with | JValue.num v => { c with image_scale := v } | _ => c
  else if kv.1 = "opacity" then
    match kv.2 with | JValue.num v => { c with opacity := v } | _ => c
  else if kv.1 = "position_x" then
    match kv.2 with | JValue.num v => { c with position_x := v } | _ => c
  else if kv.1 = "position_y" then
    match kv.2 with | JValue.num v => { c with position_y := v } | _ => c
  else if kv.1 = "rotation" then
    match kv.2 with | JValue.num v => { c with rotation := v } | _ => c
  else if kv.1 = "shadow_enabled" then
    match kv.2 with | JValue.bool v => { c with shadow_enabled := v } | _ => c
  else if kv.1 = "shadow_offset_x" then
    match kv.2 with | JValue.num v => { c with shadow_offset_x := ⌊v⌋ } | _ => c
  else if kv.1 = "shadow_offset_y" then
    match kv.2 with | JValue.num v => { c with shadow_offset_y := ⌊v⌋ } | _ => c
  else if kv.1 = "shadow_blur" then
    match kv.2 with | JValue.num v => { c with shadow_blur := ⌊v⌋ } | _ => c
  else if kv.1 = "shadow_color" then
    match kv.2 with | JValue.str v => { c with shadow_color := v } | _ => c
  else if kv.1 = "stroke_enabled" then
    match kv.2 with | JValue.bool v => { c with stroke_enabled := v } | _ => c
  else if kv.1 = "stroke_width" then
    match kv.2 with | JValue.num v => { c with stroke_width := ⌊v⌋ } | _ => c
  else if kv.1 = "stroke_color" then
    match kv.2 with | JValue.str v => { c with stroke_color := v } | _ => c
  else c

/-- Deserialisation body of `load_template`: fold the parsed JSON object
over a fresh default `WatermarkConfig()`. -/
def configFromJson (entries : List (String × JValue)) : WatermarkConfig :=
  entries.foldl applyEntry {}

/-- `ConfigManager.save_template`: write the serialised config under the
template name (the template directory modelled as a name-indexed store). -/
def save_template (store : String → Option (List (String × JValue)))
    (name : String) (c : WatermarkConfig) :
    String → Option (List (String × JValue)) :=
  fun k => if k = name then some (configToJson c) else store k

/-- `ConfigManager.load_template`: read the stored JSON object and fold it
into a default config; `none` when the template file does not exist. -/
def load_template (store : String → Option (List (String × JValue)))
    (name : String) : Option WatermarkConfig :=
  (store name).map configFromJson

/-! Concrete inputs used by the counterexamples and witnesses. -/

/-- A 1×1 fully transparent RGBA canvas. -/
def imgT : Image := ⟨Mode.RGBA, 1, 1, fun _ _ => ⟨0, 0, 0, 0⟩⟩

/-- A 2×2 opaque RGBA canvas. -/
def imgO : Image := ⟨Mode.RGBA, 2, 2, fun _ _ => ⟨10, 20, 30, 255⟩⟩

/-- An environment where every library call succeeds; draw calls are
modelled as the identity on pixels (any `effect` would do for the facts
proved at this environment). -/
def env0 : Env :=
  { truetypeOk := true, defaultOk := true, chineseOk := true,
    measureBBox := some (10, 10), measureSize := none,
    cosAbs := 1, sinAbs := 0,
    effect := fun _ _ _ p => p,
    rotate := fun im _ => im,
    shear := fun im => im,
    resample := fun _ _ im => im.px,
    loadWatermark := none,
    saveOk := true }

/-- An environment recording the library results for a large measured text
(300×150) at rotation 180°: `math.cos(math.radians(180)) = -1.0` exactly,
and the `1.2e-16` sine term is dropped (it cannot affect the truncated
sum here). -/
def envBig : Env :=
  { env0 with measureBBox := some (300, 150), cosAbs := -1, sinAbs := 0 }

/-- Opacity-zero text config with every optional effect disabled. -/
def cfgZ : WatermarkConfig := { opacity := 0 }

/-- Stroke width 1 config, used to exercise the perimeter theorem. -/
def cfgS1 : WatermarkConfig := { stroke_enabled := true, stroke_width := 1 }

/-- Opacity one-half with stroke and shadow on. -/
def cfgHalf : WatermarkConfig :=
  { stroke_enabled := true, shadow_enabled := true, opacity := 1/2 }

/-- Rotation 180° config (other fields at schema defaults). -/
def cfgRot : WatermarkConfig := { rotation := 180 }

/-- A junk default used only to extract the payload of a `some`. -/
def junkRender : TextRender := ⟨0, 0, (0, 0), [], imgT, imgT, imgT⟩

/-- The format tag strings passed to the export entry point. -/
def jpegStr : String := "JPEG"

/-- The PNG format tag. -/
def pngStr : String := "PNG"

/-- Round-half-up on a rational: the `round(255 * opacity)` the spec
claims for the main glyph alpha (Python's banker's rounding agrees with
it at the inputs considered here). -/
def roundHalf (q : ℚ) : ℤ := ⌊q + 1 / 2⌋

/-- The check that a main-glyph draw uses the rounded alpha. -/
def mainRoundCheck (alpha : ℤ) (op : DrawOp) : Bool :=
  match op.kind with
  | OpKind.main => decide (op.fill.a = alpha)
  | _ => true

/-! Basic lemmas about the embedding. -/

theorem truncRat_zero : truncRat 0 = 0 := by
  simp [truncRat]

theorem truncRat_intCast (n : ℤ) : truncRat (n : ℚ) = n := by
  unfold truncRat
  by_cases h : (0 : ℚ) ≤ (n : ℚ)
  · rw [if_pos h, Int.floor_intCast]
  · rw [if_neg h, ← Int.cast_neg, Int.floor_intCast, neg_neg]

theorem blend255_mask_zero (c d : ℕ) : blend255 c d 0 = c := by
  simp [blend255, Nat.mul_div_cancel c (by norm_num : 0 < 255)]

/-- An option that is `some` equals `some` of its `getD`. -/
theorem option_eq_some_getD {α : Type} (o : Option α) (d : α)
    (h : o.isSome = true) : o = some (o.getD d) := by
  cases o with
  | none => cases h
  | some a => rfl

theorem mem_perimeterOffsets {w : ℤ} {d : ℤ × ℤ}
    (h : d ∈ perimeterOffsets w) : |d.1| = w ∨ |d.2| = w := by
  simp only [perimeterOffsets, List.mem_filter, decide_eq_true_eq] at h
  exact h.2

theorem strokeOpsPerim_spec {bx byy : ℤ} {text : String} {font : Option Font}
    {sc : RGB} {w : ℤ} {op : DrawOp}
    (h : op ∈ strokeOpsPerim bx byy text font sc w) :
    (∃ dx dy, op.kind = OpKind.stroke dx dy ∧ (|dx| = w ∨ |dy| = w)) ∧
    op.fill.a = 255 := by
  simp only [strokeOpsPerim, List.mem_map] at h
  obtain ⟨d, hd, rfl⟩ := h
  exact ⟨⟨d.1, d.2, rfl, mem_perimeterOffsets hd⟩, rfl⟩

theorem strokeOpsFilled_fill {bx byy : ℤ} {text : String} {font : Option Font}
    {sc : RGB} {w : ℤ} {op : DrawOp}
    (h : op ∈ strokeOpsFilled bx byy text font sc w) :
    (∃ dx dy, op.kind = OpKind.stroke dx dy) ∧ op.fill.a = 255 := by
  simp only [strokeOpsFilled, List.mem_map] at h
  obtain ⟨d, _, rfl⟩ := h
  exact ⟨⟨d.1, d.2, rfl⟩, rfl⟩

theorem boldOps_spec {offs : List (ℤ × ℤ)} {bx byy : ℤ} {text : String}
    {font : Option Font} {fill : Fill} {op : DrawOp}
    (h : op ∈ boldOps offs bx byy text font fill) :
    (∃ dx dy, op.kind = OpKind.bold dx dy) ∧ op.fill = fill := by
  simp only [boldOps, List.mem_map] at h
  obtain ⟨d, _, rfl⟩ := h
  exact ⟨⟨d.1, d.2, rfl⟩, rfl⟩

/-- Characterisation of the draws in an `effectOps` block: strokes are on
the perimeter at alpha 255, the shadow is at alpha 255, bold and main use
the supplied fill. -/
theorem effectOps_spec {cfg : WatermarkConfig} {text : String}
    {font : Option Font} {fill : Fill} {bx byy : ℤ} {op : DrawOp}
    (h : op ∈ effectOps cfg text font fill bx byy) :
    ((∃ dx dy, op.kind = OpKind.stroke dx dy ∧
       (|dx| = cfg.stroke_width ∨ |dy| = cfg.stroke_width)) ∧ op.fill.a = 255) ∨
    (op.kind = OpKind.shadow ∧ op.fill.a = 255) ∨
    ((∃ dx dy, op.kind = OpKind.bold dx dy) ∧ op.fill = fill) ∨
    (op.kind = OpKind.main ∧ op.fill = fill) := by
  simp only [effectOps, List.mem_append] at h
  rcases h with ((h | h) | h) | h
  · split at h
    · exact Or.inl (strokeOpsPerim_spec h)
    · cases h
  · split at h
    · simp only [List.mem_singleton] at h
      subst h
      exact Or.inr (Or.inl ⟨rfl, rfl⟩)
    · cases h
  · split at h
    · exact Or.inr (Or.inr (Or.inl (boldOps_spec h)))
    · cases h
  · simp only [List.mem_singleton] at h
    subst h
    exact Or.inr (Or.inr (Or.inr ⟨rfl, rfl⟩))

/-- Characterisation of the first-pass stroke/shadow draws. -/
theorem opsPhaseA_spec {cfg : WatermarkConfig} {posX posY : ℤ}
    {text : String} {font : Option Font} {op : DrawOp}
    (h : op ∈ opsPhaseA cfg posX posY text font) :
    ((∃ dx dy, op.kind = OpKind.stroke dx dy) ∧ op.fill.a = 255) ∨
    (op.kind = OpKind.shadow ∧ op.fill.a = 255) := by
  simp only [opsPhaseA, List.mem_append] at h
  rcases h with h | h
  · split at h
    · exact Or.inl (strokeOpsFilled_fill h)
    · cases h
  · split at h
    · simp only [List.mem_singleton] at h
      subst h
      exact Or.inr ⟨rfl, rfl⟩
    · cases h

/-- Characterisation of the first-pass main/bold draws: bold and main use
`mainFill`, or — through the italic temp image — `italicFill`. -/
theorem phaseB_spec {env : Env} {cfg : WatermarkConfig} {afterA : Image}
    {posX posY : ℤ} {text : String} {f : Font}
    {mainFill italicFill : Fill} {tw th : ℕ} {op : DrawOp}
    (h : op ∈ (phaseB env cfg afterA posX posY text f mainFill italicFill tw th).1) :
    ((∃ dx dy, op.kind = OpKind.bold dx dy) ∨ op.kind = OpKind.main) ∧
    (op.fill = mainFill ∨ op.fill = italicFill) ∧
    (cfg.font_italic = false → op.fill = mainFill) := by
  simp only [phaseB] at h
  by_cases hit : cfg.font_italic
  · rw [if_pos hit] at h
    simp only [List.mem_append] at h
    rcases h with h | h
    · split at h
      · obtain ⟨hk, hf⟩ := boldOps_spec h
        exact ⟨Or.inl hk, Or.inr hf, fun hc => absurd hit (by simp [hc])⟩
      · cases h
    · simp only [List.mem_singleton] at h
      subst h
      exact ⟨Or.inr rfl, Or.inr rfl, fun hc => absurd hit (by simp [hc])⟩
  · rw [if_neg hit] at h
    simp only [List.mem_append] at h
    rcases h with h | h
    · split at h
      · obtain ⟨hk, hf⟩ := boldOps_spec h
        exact ⟨Or.inl hk, Or.inl hf, fun _ => hf⟩
      · cases h
    · simp only [List.mem_singleton] at h
      subst h
      exact ⟨Or.inr rfl, Or.inl rfl, fun _ => rfl⟩

theorem opsPhaseA_no_stroke {cfg : WatermarkConfig} {posX posY : ℤ}
    {text : String} {font : Option Font} {op : DrawOp}
    (hs : cfg.stroke_enabled = false)
    (h : op ∈ opsPhaseA cfg posX posY text font) : op.kind = OpKind.shadow := by
  simp only [opsPhaseA, hs, Bool.false_eq_true, if_false, List.nil_append] at h
  split at h
  · simp only [List.mem_singleton] at h
    subst h
    rfl
  · cases h

theorem opsPhaseA_nil {cfg : WatermarkConfig} {posX posY : ℤ}
    {text : String} {font : Option Font}
    (hs : cfg.stroke_enabled = false) (hsh : cfg.shadow_enabled = false) :
    opsPhaseA cfg posX posY text font = [] := by
  simp [opsPhaseA, hs, hsh]

theorem effectOps_fill_only {cfg : WatermarkConfig} {text : String}
    {font : Option Font} {fill : Fill} {bx byy : ℤ} {op : DrawOp}
    (hs : cfg.stroke_enabled = false) (hsh : cfg.shadow_enabled = false)
    (h : op ∈ effectOps cfg text font fill bx byy) : op.fill = fill := by
  simp only [effectOps, hs, hsh, Bool.false_eq_true, if_false,
    List.nil_append, List.mem_append] at h
  rcases h with h | h
  · split at h
    · exact (boldOps_spec h).2
    · cases h
  · simp only [List.mem_singleton] at h
    subst h
    rfl

/-- The draws of the rotation path are exactly one `effectOps` block, with
the italic fill on the italic sub-path and the main fill otherwise. -/
theorem rotateBranch_trace {env : Env} {cfg : WatermarkConfig} {W H : ℕ}
    {text : String} {font : Option Font} {mF iF : Fill} {tw th : ℕ}
    {pX pY : ℤ} {a : List DrawOp × Image}
    (h : rotateBranch env cfg W H text font mF iF tw th pX pY = some a) :
    ∃ bx byy, (cfg.font_italic = true ∧ a.1 = effectOps cfg text font iF bx byy) ∨
      (cfg.font_italic = false ∧ a.1 = effectOps cfg text font mF bx byy) := by
  simp only [rotateBranch] at h
  split at h
  · cases h
  · by_cases hit : cfg.font_italic
    · simp only [hit, if_true, Option.some.injEq] at h
      subst h
      exact ⟨_, _, Or.inl ⟨hit, rfl⟩⟩
    · simp only [hit, if_false, Option.some.injEq] at h
      subst h
      exact ⟨_, _, Or.inr ⟨by simpa using hit, rfl⟩⟩

/-- Fill discipline of every draw surviving into the final layer: strokes
and the shadow at alpha 255; bold and main at `color_with_opacity`, or at
the italic fill when they went through an italic temp image. -/
theorem renderedOf_fill_spec {env : Env} {img : Image} {cfg : WatermarkConfig}
    {a : List DrawOp × Image} (h : renderedOf env img cfg = some a) :
    ∀ op ∈ a.1,
      (∀ dx dy, op.kind = OpKind.stroke dx dy → op.fill.a = 255) ∧
      (op.kind = OpKind.shadow → op.fill.a = 255) ∧
      ((op.kind = OpKind.main ∨ ∃ dx dy, op.kind = OpKind.bold dx dy) →
        (op.fill = mainFillOf cfg ∨ op.fill = italicFillOf cfg) ∧
        (cfg.font_italic = false → op.fill = mainFillOf cfg)) := by
  simp only [renderedOf] at h
  split at h
  · obtain ⟨bx, byy, hcase⟩ := rotateBranch_trace h
    rcases hcase with ⟨hit, htr⟩ | ⟨hit, htr⟩ <;>
    · intro op hop
      rw [htr] at hop
      rcases effectOps_spec hop with ⟨⟨dx, dy, hk, _⟩, hf⟩ | ⟨hk, hf⟩ |
        ⟨⟨dx, dy, hk⟩, hf⟩ | ⟨hk, hf⟩ <;>
        refine ⟨?_, ?_, ?_⟩ <;>
        simp_all
  · split at h
    · simp only [Option.some.injEq] at h
      subst h
      intro op hop
      rcases effectOps_spec hop with ⟨⟨dx, dy, hk, _⟩, hf⟩ | ⟨hk, hf⟩ |
        ⟨⟨dx, dy, hk⟩, hf⟩ | ⟨hk, hf⟩ <;>
        refine ⟨?_, ?_, ?_⟩ <;>
        simp_all
    · cases hfont : theFont env cfg with
      | none =>
        rw [hfont] at h
        cases h
      | some f =>
        rw [hfont] at h
        simp only [Option.some.injEq] at h
        subst h
        intro op hop
        simp only [List.mem_append] at hop
        rcases hop with hop | hop
        · rcases opsPhaseA_spec hop with ⟨⟨dx, dy, hk⟩, hf⟩ | ⟨hk, hf⟩ <;>
            refine ⟨?_, ?_, ?_⟩ <;>
            simp_all
        · obtain ⟨hk, hf, hfi⟩ := phaseB_spec hop
          rcases hk with ⟨dx, dy, hk⟩ | hk <;>
            refine ⟨?_, ?_, ?_⟩ <;>
            simp_all

/-- Stroke-offset discipline of every returned final layer: only
perimeter offsets survive.  (The filled-square draws of lines 175-183
never survive: with a font the rotation or redraw path rebuilds the
layer with the perimeter condition, and without one every draw raises
and nothing is returned.) -/
theorem renderedOf_stroke_perim {env : Env} {img : Image}
    {cfg : WatermarkConfig} {a : List DrawOp × Image}
    (h : renderedOf env img cfg = some a) :
    ∀ op ∈ a.1, ∀ dx dy, op.kind = OpKind.stroke dx dy →
      |dx| = cfg.stroke_width ∨ |dy| = cfg.stroke_width := by
  simp only [renderedOf] at h
  split at h
  · obtain ⟨bx, byy, hcase⟩ := rotateBranch_trace h
    rcases hcase with ⟨_, htr⟩ | ⟨_, htr⟩ <;>
    · intro op hop dx dy hk
      rw [htr] at hop
      rcases effectOps_spec hop with ⟨⟨dx2, dy2, hk2, hp⟩, _⟩ | ⟨hk2, _⟩ |
        ⟨⟨dx2, dy2, hk2⟩, _⟩ | ⟨hk2, _⟩
      · rw [hk] at hk2
        injection hk2 with e1 e2
        subst e1
        subst e2
        exact hp
      · rw [hk] at hk2
        cases hk2
      · rw [hk] at hk2
        cases hk2
      · rw [hk] at hk2
        cases hk2
  · split at h
    · simp only [Option.some.injEq] at h
      subst h
      intro op hop dx dy hk
      rcases effectOps_spec hop with ⟨⟨dx2, dy2, hk2, hp⟩, _⟩ | ⟨hk2, _⟩ |
        ⟨⟨dx2, dy2, hk2⟩, _⟩ | ⟨hk2, _⟩
      · rw [hk] at hk2
        injection hk2 with e1 e2
        subst e1
        subst e2
        exact hp
      · rw [hk] at hk2
        cases hk2
      · rw [hk] at hk2
        cases hk2
      · rw [hk] at hk2
        cases hk2
    · rename_i hcond2
      cases hfont : theFont env cfg with
      | none =>
        rw [hfont] at h
        cases h
      | some f =>
        have hs : cfg.stroke_enabled = false := by
          by_cases hsb : cfg.stroke_enabled = true
          · exact absurd ⟨hsb, by rw [hfont]; rfl⟩ hcond2
          · exact Bool.eq_false_iff.mpr hsb
        rw [hfont] at h
        simp only [Option.some.injEq] at h
        subst h
        intro op hop dx dy hk
        simp only [List.mem_append] at hop
        rcases hop with hop | hop
        · have := opsPhaseA_no_stroke hs hop
          rw [this] at hk
          cases hk
        · obtain ⟨hkinds, _, _⟩ := phaseB_spec hop
          rcases hkinds with ⟨dx2, dy2, hk2⟩ | hk2 <;> rw [hk2] at hk <;> cases hk

/-- A trace of zero-alpha fills leaves a fully transparent surface fully
transparent (the environment constraint says one `draw.text` with a fully
transparent ink cannot make a transparent pixel opaque). -/
theorem drawOps_alpha_zero {env : Env} {ops : List DrawOp} {img : Image}
    (heff : ∀ op x y p, op.fill.a = 0 → p.a = 0 → (env.effect op x y p).a = 0)
    (hops : ∀ op ∈ ops, op.fill.a = 0)
    (himg : ∀ x y, (img.px x y).a = 0) :
    ∀ x y, ((drawOps env img ops).px x y).a = 0 := by
  induction ops generalizing img with
  | nil => exact himg
  | cons o os ih =>
    intro x y
    refine ih (fun op hop => hops op (List.mem_cons_of_mem _ hop)) ?_ x y
    intro x2 y2
    exact heff o x2 y2 _ (hops o (List.mem_cons_self _ _)) (himg x2 y2)

theorem pasteMask_alpha_zero {dst src : Image} {px0 py0 : ℤ}
    (hd : ∀ x y, (dst.px x y).a = 0) (hs2 : ∀ x y, (src.px x y).a = 0) :
    ∀ x y, ((pasteMask dst src px0 py0).px x y).a = 0 := by
  intro x y
  simp only [pasteMask]
  split
  · simp [blend255, hd, hs2]
  · exact hd x y

theorem newRGBA_alpha (w h x y : ℕ) : ((newRGBA w h).px x y).a = 0 := rfl

theorem mainFillOf_alpha_zero {cfg : WatermarkConfig} (hop : cfg.opacity = 0) :
    (mainFillOf cfg).a = 0 := by
  simp [mainFillOf, hop, truncRat_zero]

theorem phaseB_alpha_zero {env : Env} {cfg : WatermarkConfig} {afterA : Image}
    {posX posY : ℤ} {text : String} {f : Font} {mF iF : Fill}
    {tw th : ℕ}
    (hit : cfg.font_italic = false) (hm : mF.a = 0)
    (heff : ∀ op x y p, op.fill.a = 0 → p.a = 0 → (env.effect op x y p).a = 0)
    (hA : ∀ x y, (afterA.px x y).a = 0) :
    ∀ x y, (((phaseB env cfg afterA posX posY text f mF iF tw th).2).px x y).a = 0 := by
  simp only [phaseB, hit, Bool.false_eq_true, if_false]
  refine drawOps_alpha_zero heff ?_ hA
  intro op hop
  simp only [List.mem_append] at hop
  rcases hop with hop | hop
  · split at hop
    · rw [(boldOps_spec hop).2]
      exact hm
    · cases hop
  · simp only [List.mem_singleton] at hop
    subst hop
    exact hm

theorem rotateBranch_alpha_zero {env : Env} {cfg : WatermarkConfig}
    {W H : ℕ} {text : String} {font : Option Font} {mF iF : Fill}
    {tw th : ℕ} {pX pY : ℤ} {a : List DrawOp × Image}
    (hit : cfg.font_italic = false) (hs : cfg.stroke_enabled = false)
    (hsh : cfg.shadow_enabled = false) (hm : mF.a = 0)
    (heff : ∀ op x y p, op.fill.a = 0 → p.a = 0 → (env.effect op x y p).a = 0)
    (hrotp : ∀ im θ, (∀ x y, (im.px x y).a = 0) →
      ∀ x y, ((env.rotate im θ).px x y).a = 0)
    (h : rotateBranch env cfg W H text font mF iF tw th pX pY = some a) :
    ∀ x y, ((a.2).px x y).a = 0 := by
  simp only [rotateBranch] at h
  split at h
  · cases h
  · simp only [hit, Bool.false_eq_true, if_false, Option.some.injEq] at h
    subst h
    refine pasteMask_alpha_zero (fun x y => newRGBA_alpha W H x y) ?_
    refine hrotp _ _ ?_
    refine drawOps_alpha_zero heff ?_ (fun x y => newRGBA_alpha _ _ x y)
    intro op hop
    rw [effectOps_fill_only hs hsh hop]
    exact hm

/-- With opacity 0 and stroke/shadow/italic off, the surviving watermark
layer is fully transparent. -/
theorem renderedOf_alpha_zero {env : Env} {img : Image}
    {cfg : WatermarkConfig} {a : List DrawOp × Image}
    (hop : cfg.opacity = 0) (hs : cfg.stroke_enabled = false)
    (hsh : cfg.shadow_enabled = false) (hit : cfg.font_italic = false)
    (heff : ∀ op x y p, op.fill.a = 0 → p.a = 0 → (env.effect op x y p).a = 0)
    (hrotp : ∀ im θ, (∀ x y, (im.px x y).a = 0) →
      ∀ x y, ((env.rotate im θ).px x y).a = 0)
    (h : renderedOf env img cfg = some a) :
    ∀ x y, ((a.2).px x y).a = 0 := by
  simp only [renderedOf] at h
  split at h
  · exact rotateBranch_alpha_zero hit hs hsh (mainFillOf_alpha_zero hop) heff hrotp h
  · split at h
    · rename_i hcond
      exact absurd hcond.1 (by simp [hs])
    · cases hfont : theFont env cfg with
      | none =>
        rw [hfont] at h
        cases h
      | some f =>
        rw [hfont] at h
        simp only [Option.some.injEq] at h
        subst h
        refine phaseB_alpha_zero hit (mainFillOf_alpha_zero hop) heff ?_
        rw [opsPhaseA_nil hs hsh]
        exact fun x y => newRGBA_alpha _ _ x y

theorem alphaComposite_src_zero {dst src : Image} {x y : ℕ}
    (h : (src.px x y).a = 0) :
    (alphaComposite dst src).px x y = dst.px x y := by
  simp [alphaComposite, alphaCompositePx, h]

theorem pasteFull_origin_px {dst src : Image} {x y : ℕ}
    (hx : x < src.width) (hy : y < src.height) :
    (pasteFull dst src 0 0).px x y = src.px x y := by
  have hc : (0 : ℤ) ≤ (x : ℤ) ∧ (x : ℤ) < 0 + (src.width : ℤ) ∧
      (0 : ℤ) ≤ (y : ℤ) ∧ (y : ℤ) < 0 + (src.height : ℤ) := by
    refine ⟨Int.ofNat_nonneg x, ?_, Int.ofNat_nonneg y, ?_⟩ <;>
      · rw [zero_add]
        exact_mod_cast (by assumption)
  simp only [pasteFull, if_pos hc, Int.sub_zero, Int.toNat_natCast]

/-- The trace of a successful render is the trace of its layer phase. -/
theorem traceOf_eq {env : Env} {img : Image} {cfg : WatermarkConfig}
    {a : List DrawOp × Image} (hr : renderedOf env img cfg = some a) :
    ((add_text_watermark env img cfg).map TextRender.trace).getD [] = a.1 := by
  simp [add_text_watermark, hr, finishRender]

theorem traceOf_none {env : Env} {img : Image} {cfg : WatermarkConfig}
    (hr : renderedOf env img cfg = none) :
    ((add_text_watermark env img cfg).map TextRender.trace).getD [] = [] := by
  simp [add_text_watermark, hr]

/-- `add_image_watermark` either fails (returning the untouched source)
or pastes the processed watermark at the anchor position. -/
theorem add_image_watermark_spec (env : Env) (img : Image)
    (cfg : WatermarkConfig) :
    add_image_watermark env img cfg = ⟨none, 0, 0, img⟩ ∨
    ∃ wm3 : Image, add_image_watermark env img cfg =
      ⟨some (anchorPos img.width img.height wm3.width wm3.height
          cfg.position_x cfg.position_y),
       wm3.width, wm3.height,
       pasteMask (pasteFull (newRGBA img.width img.height) img 0 0) wm3
         (anchorPos img.width img.height wm3.width wm3.height
           cfg.position_x cfg.position_y).1
         (anchorPos img.width img.height wm3.width wm3.height
           cfg.position_x cfg.position_y).2⟩ := by
  unfold add_image_watermark
  cases henv : env.loadWatermark with
  | none => exact Or.inl rfl
  | some wm0 =>
    cases hres : resizeImage env wm0 (truncRat ((wm0.width : ℚ) * cfg.image_scale))
        (truncRat ((wm0.height : ℚ) * cfg.image_scale)) with
    | none =>
      left
      simp only [hres]
    | some wm1 =>
      right
      refine ⟨if cfg.rotation ≠ 0 then
          env.rotate (if cfg.opacity < 1 then scaleAlpha wm1 cfg.opacity else wm1)
            cfg.rotation
        else (if cfg.opacity < 1 then scaleAlpha wm1 cfg.opacity else wm1), ?_⟩
      simp only [hres]

/-! Claim theorems. -/

/-- C1 counterexample: at a concrete input (1×1 transparent canvas,
default config with opacity 0), `add_text_watermark` returns a 3-channel
RGB image, not one that still carries the alpha channel as the claim
states. -/
theorem c1_counterexample :
    (add_text_watermark env0 imgT cfgZ).map (fun r => r.result.mode) = some Mode.RGB ∧
    ¬ ((add_text_watermark env0 imgT cfgZ).map (fun r => r.result.mode) =
        some Mode.RGBA) := by
  decide

/-- C1 (amended): the working bitmap is RGBA through compositing — the
composite of line 458 always has mode RGBA — but `add_text_watermark`
then flattens it onto opaque white and returns a 3-channel RGB image
(lines 460-464); the flatten is not deferred to the lossy export. -/
theorem c1_flatten (env : Env) (img : Image) (cfg : WatermarkConfig)
    (r : TextRender) (h : add_text_watermark env img cfg = some r) :
    r.composite.mode = Mode.RGBA ∧ r.result.mode = Mode.RGB := by
  obtain ⟨a, ha, rfl⟩ := Option.map_eq_some'.mp h
  exact ⟨rfl, rfl⟩

/-- C1 witness: the amended claim at a concrete render. -/
theorem c1_flatten_witness :
    ((add_text_watermark env0 imgT cfgZ).getD junkRender).composite.mode = Mode.RGBA ∧
    ((add_text_watermark env0 imgT cfgZ).getD junkRender).result.mode = Mode.RGB :=
  c1_flatten env0 imgT cfgZ _ (option_eq_some_getD _ junkRender (by decide))

/-- C2 counterexample: with opacity 0 and every optional effect disabled,
the returned image is not pixel-identical to the input canvas — the final
flatten turns the transparent input pixel `(0,0,0,0)` into opaque white
`(255,255,255,255)` and drops the alpha channel. -/
theorem c2_counterexample :
    (add_text_watermark env0 imgT cfgZ).map (fun r => r.result.px 0 0) =
      some ⟨255, 255, 255, 255⟩ ∧
    imgT.px 0 0 = ⟨0, 0, 0, 0⟩ ∧
    (⟨255, 255, 255, 255⟩ : Pixel) ≠ ⟨0, 0, 0, 0⟩ ∧
    (add_text_watermark env0 imgT cfgZ).map (fun r => r.result.mode) = some Mode.RGB ∧
    imgT.mode = Mode.RGBA := by
  decide

/-- C2 (amended): with opacity 0 and the stroke, shadow and italic
effects disabled (stroke and shadow draw at alpha 255 and the italic path
boosts alpha to at least 80, so they mark the canvas even at opacity 0),
the RGBA composite before the final flatten is pixel-identical to the
input canvas; the returned image is that composite flattened onto opaque
white.  The environment hypotheses say that a draw with fully transparent
ink cannot make a transparent pixel opaque and that rotation preserves
full transparency. -/
theorem c2_opacity_zero (env : Env) (img : Image) (cfg : WatermarkConfig)
    (r : TextRender)
    (hop : cfg.opacity = 0) (hs : cfg.stroke_enabled = false)
    (hsh : cfg.shadow_enabled = false) (hit : cfg.font_italic = false)
    (heff : ∀ op x y p, op.fill.a = 0 → p.a = 0 → (env.effect op x y p).a = 0)
    (hrotp : ∀ im θ, (∀ x y, (im.px x y).a = 0) →
      ∀ x y, ((env.rotate im θ).px x y).a = 0)
    (h : add_text_watermark env img cfg = some r) :
    (∀ x y, x < img.width → y < img.height → r.composite.px x y = img.px x y) ∧
    r.composite.width = img.width ∧ r.composite.height = img.height ∧
    r.result = flattenWhite r.composite := by
  obtain ⟨a, ha, rfl⟩ := Option.map_eq_some'.mp h
  have hlayer := renderedOf_alpha_zero hop hs hsh hit heff hrotp ha
  refine ⟨?_, rfl, rfl, rfl⟩
  intro x y hx hy
  show (alphaComposite (pasteFull (newRGBA img.width img.height) img 0 0) a.2).px x y
      = img.px x y
  rw [alphaComposite_src_zero (hlayer x y)]
  exact pasteFull_origin_px hx hy

/-- C2 witness: the amended claim applied at a concrete opacity-0 render
over an opaque 2×2 canvas. -/
theorem c2_opacity_zero_witness :
    ((add_text_watermark env0 imgO cfgZ).getD junkRender).composite.px 0 0 =
      imgO.px 0 0 :=
  (c2_opacity_zero env0 imgO cfgZ _ rfl rfl rfl rfl
    (fun _ _ _ _ _ hp => hp) (fun _ _ him x y => him x y)
    (option_eq_some_getD _ junkRender (by decide))).1 0 0 (by decide) (by decide)

/-- C3: every stroke draw of the glyph run surviving into a final output
uses only perimeter offsets — `|dx| = strokeWidth` or
`|dy| = strokeWidth`, never the filled square — for every italic, bold
and rotation combination and whether or not a font was loaded.  The
first-pass filled-square stroke draws of lines 175-183 never reach an
output: with a font, the rotation path (line 264) or the stroke redraw
path (line 407) rebuilds the layer with the perimeter-only condition,
and without one every `draw.text` of the first pass re-invokes the
failed `ImageFont.load_default` and raises, so nothing is returned. -/
theorem c3_stroke_perimeter (env : Env) (img : Image) (cfg : WatermarkConfig) :
    (((add_text_watermark env img cfg).map TextRender.trace).getD []).Forall
      (fun op => ∀ dx dy, op.kind = OpKind.stroke dx dy →
        |dx| = cfg.stroke_width ∨ |dy| = cfg.stroke_width) := by
  rw [List.forall_iff_forall_mem]
  intro op hop
  cases hr : renderedOf env img cfg with
  | none =>
    rw [traceOf_none hr] at hop
    cases hop
  | some a =>
    rw [traceOf_eq hr] at hop
    exact renderedOf_stroke_perim hr op hop

/-- C3 witness: the claim at a concrete stroked render. -/
theorem c3_stroke_perimeter_witness :
    (((add_text_watermark env0 imgT cfgS1).map TextRender.trace).getD []).Forall
      (fun op => ∀ dx dy, op.kind = OpKind.stroke dx dy →
        |dx| = cfgS1.stroke_width ∨ |dy| = cfgS1.stroke_width) :=
  c3_stroke_perimeter env0 imgT cfgS1

/-- C4: both renderers anchor the watermark's top-left at
`(int((canvasW - w) * posX), int((canvasH - h) * posY))` — the text path
records exactly this anchor, the image path pastes at it (computed from
the possibly rotated watermark size) — and consequently position `(0,0)`
anchors at the canvas origin exactly, and position `(1,1)` aligns the
bottom-right edges exactly. -/
theorem c4_anchor (env : Env) (img : Image) (cfg : WatermarkConfig) :
    (∀ r : TextRender, add_text_watermark env img cfg = some r →
      r.pos = anchorPos img.width img.height r.tw r.th
        cfg.position_x cfg.position_y) ∧
    (∀ q : ℤ × ℤ, (add_image_watermark env img cfg).pastePos = some q →
      q = anchorPos img.width img.height (add_image_watermark env img cfg).wmW
        (add_image_watermark env img cfg).wmH cfg.position_x cfg.position_y) ∧
    (∀ w h tw th : ℕ, anchorPos w h tw th 0 0 = (0, 0)) ∧
    (∀ w h tw th : ℕ, (anchorPos w h tw th 1 1).1 + tw = w ∧
      (anchorPos w h tw th 1 1).2 + th = h) := by
  refine ⟨?_, ?_, ?_, ?_⟩
  · intro r h
    obtain ⟨a, ha, rfl⟩ := Option.map_eq_some'.mp h
    rfl
  · intro q hq
    rcases add_image_watermark_spec env img cfg with hsp | ⟨wm3, hsp⟩
    · rw [hsp] at hq
      cases hq
    · rw [hsp] at hq ⊢
      simp only [Option.some.injEq] at hq
      exact hq.symm
  · intro w h tw th
    simp [anchorPos, truncRat_zero]
  · intro w h tw th
    constructor <;>
    · simp only [anchorPos, mul_one, truncRat_intCast]
      omega

/-- C4 witness: the consequences at concrete values, and the text anchor
of a concrete render. -/
theorem c4_anchor_witness :
    anchorPos 800 600 100 50 0 0 = (0, 0) ∧
    ((anchorPos 800 600 100 50 1 1).1 + 100 = 800 ∧
      (anchorPos 800 600 100 50 1 1).2 + 50 = 600) ∧
    ((add_text_watermark env0 imgO cfgZ).getD junkRender).pos =
      anchorPos imgO.width imgO.height
        ((add_text_watermark env0 imgO cfgZ).getD junkRender).tw
        ((add_text_watermark env0 imgO cfgZ).getD junkRender).th
        cfgZ.position_x cfgZ.position_y :=
  ⟨(c4_anchor env0 imgO cfgZ).2.2.1 800 600 100 50,
   (c4_anchor env0 imgO cfgZ).2.2.2 800 600 100 50,
   (c4_anchor env0 imgO cfgZ).1 _ (option_eq_some_getD _ junkRender (by decide))⟩

unseal Rat.mul Rat.add Rat.inv Rat.sub in
/-- C5 counterexample: at opacity `1/2` the main glyph draw in the final
output uses alpha `int(255 * 0.5) = 127`, not the claimed
`round(255 * 0.5) = 128`. -/
theorem c5_counterexample :
    ¬ ((((add_text_watermark env0 imgT cfgHalf).map TextRender.trace).getD []).Forall
      (fun op => op.kind = OpKind.main →
        op.fill.a = roundHalf (255 * cfgHalf.opacity))) := by
  intro hf
  rw [List.forall_iff_forall_mem] at hf
  have hb : ((((add_text_watermark env0 imgT cfgHalf).map TextRender.trace).getD []).all
      (mainRoundCheck (roundHalf (255 * cfgHalf.opacity)))) = true := by
    rw [List.all_eq_true]
    intro op hop
    have := hf op hop
    unfold mainRoundCheck
    cases hk : op.kind with
    | stroke dx dy => rfl
    | shadow => rfl
    | bold dx dy => rfl
    | main => exact decide_eq_true (this hk)
  have hb2 : ((((add_text_watermark env0 imgT cfgHalf).map TextRender.trace).getD []).all
      (mainRoundCheck (roundHalf (255 * cfgHalf.opacity)))) = false := by
    decide
  rw [hb] at hb2
  cases hb2

/-- C5 (amended): every stroke draw and every shadow draw surviving into
the final output uses alpha 255 independent of the configured opacity;
the primary glyph draw uses the truncated alpha `int(255 * opacity)`, or
the boosted italic alpha `min(255, int(255 * opacity * 1.05 + 80))` when
it went through the italic sub-path — in particular exactly
`int(255 * opacity)` whenever italic is disabled. -/
theorem c5_alpha (env : Env) (img : Image) (cfg : WatermarkConfig) :
    (((add_text_watermark env img cfg).map TextRender.trace).getD []).Forall
      (fun op =>
        (∀ dx dy, op.kind = OpKind.stroke dx dy → op.fill.a = 255) ∧
        (op.kind = OpKind.shadow → op.fill.a = 255) ∧
        (op.kind = OpKind.main →
          op.fill.a = truncRat (255 * cfg.opacity) ∨
          op.fill.a = min 255 (truncRat (255 * cfg.opacity * (21 / 20) + 80))) ∧
        (cfg.font_italic = false → op.kind = OpKind.main →
          op.fill.a = truncRat (255 * cfg.opacity))) := by
  rw [List.forall_iff_forall_mem]
  intro op hop
  cases hr : renderedOf env img cfg with
  | none =>
    rw [traceOf_none hr] at hop
    cases hop
  | some a =>
    rw [traceOf_eq hr] at hop
    obtain ⟨h1, h2, h3⟩ := renderedOf_fill_spec hr op hop
    refine ⟨h1, h2, ?_, ?_⟩
    · intro hk
      rcases (h3 (Or.inl hk)).1 with hfl | hfl
      · left
        rw [hfl]
        rfl
      · right
        rw [hfl]
        rfl
    · intro hit hk
      rw [(h3 (Or.inl hk)).2 hit]
      rfl

/-- C5 witness: the amended claim at a concrete stroked and shadowed
render at opacity one half. -/
theorem c5_alpha_witness :
    (((add_text_watermark env0 imgT cfgHalf).map TextRender.trace).getD []).Forall
      (fun op =>
        (∀ dx dy, op.kind = OpKind.stroke dx dy → op.fill.a = 255) ∧
        (op.kind = OpKind.shadow → op.fill.a = 255) ∧
        (op.kind = OpKind.main →
          op.fill.a = truncRat (255 * cfgHalf.opacity) ∨
          op.fill.a = min 255 (truncRat (255 * cfgHalf.opacity * (21 / 20) + 80))) ∧
        (cfgHalf.font_italic = false → op.kind = OpKind.main →
          op.fill.a = truncRat (255 * cfgHalf.opacity))) :=
  c5_alpha env0 imgT cfgHalf

unseal Rat.mul Rat.add Rat.inv Rat.sub in
/-- C6: contrary to the never-raises claim, the rotation path computes a
square temp canvas of side `int(tw*cos|θ| + th*sin|θ|) + 100`, which is
negative for rotation 180° with a 300×150 measured text
(`cos(radians(180)) = -1.0`), so `Image.new` raises `ValueError` and the
render call returns nothing instead of a rendered layer. -/
theorem c6_rotation_raises : add_text_watermark envBig imgT cfgRot = none := by
  have h : (add_text_watermark envBig imgT cfgRot).isSome = false := by decide
  cases hp : add_text_watermark envBig imgT cfgRot with
  | none => rfl
  | some r =>
    rw [hp] at h
    cases h

/-- C7: when the watermark file cannot be loaded, or the scaled size is
non-positive so the resize fails, `add_image_watermark` returns a copy of
the untouched source canvas (the whole body is wrapped in a catch-all
that returns `image.copy()`, and the pure model never mutates its
input). -/
theorem c7_image_watermark_fallback (env : Env) (img : Image)
    (cfg : WatermarkConfig) :
    (env.loadWatermark = none → (add_image_watermark env img cfg).result = img) ∧
    (∀ wm : Image, env.loadWatermark = some wm →
      (truncRat ((wm.width : ℚ) * cfg.image_scale) ≤ 0 ∨
       truncRat ((wm.height : ℚ) * cfg.image_scale) ≤ 0) →
      (add_image_watermark env img cfg).result = img) := by
  constructor
  · intro h
    simp [add_image_watermark, h]
  · intro wm h hle
    have hres : resizeImage env wm (truncRat ((wm.width : ℚ) * cfg.image_scale))
        (truncRat ((wm.height : ℚ) * cfg.image_scale)) = none := by
      unfold resizeImage
      rw [if_pos hle]
    simp [add_image_watermark, h, hres]

/-- C7 witness: a concrete call with a missing watermark file returns the
source canvas. -/
theorem c7_image_watermark_fallback_witness :
    (add_image_watermark env0 imgO cfgZ).result = imgO :=
  (c7_image_watermark_fallback env0 imgO cfgZ).1 rfl

/-- C8: serialising a `WatermarkConfig` to the template JSON and
deserialising it restores every field; deserialisation ignores unknown
keys, and keys absent from the JSON keep their schema defaults (text
"水印文字", opacity 0.5, position 0.5/0.5). -/
theorem c8_template_roundtrip :
    (∀ (store : String → Option (List (String × JValue))) (name : String)
       (c : WatermarkConfig),
      load_template (save_template store name c) name = some c) ∧
    configFromJson [] = {} ∧
    ({} : WatermarkConfig).text_content = "水印文字" ∧
    ({} : WatermarkConfig).opacity = 1/2 ∧
    ({} : WatermarkConfig).position_x = 1/2 ∧
    ({} : WatermarkConfig).position_y = 1/2 ∧
    (∀ (c : WatermarkConfig) (k : String) (v : JValue),
      k ∉ knownKeys → applyEntry c (k, v) = c) := by
  refine ⟨?_, rfl, rfl, rfl, rfl, rfl, ?_⟩
  · intro store name c
    have hrt : configFromJson (configToJson c) = c := by
      cases c
      simp [configFromJson, configToJson, applyEntry, Int.floor_intCast]
    simp [load_template, save_template, hrt]
  · intro c k v h
    simp only [knownKeys, List.mem_cons, List.not_mem_nil, or_false, not_or] at h
    obtain ⟨h1, h2, h3, h4, h5, h6, h7, h8, h9, h10, h11, h12, h13,
      h14, h15, h16, h17, h18, h19, h20, h21⟩ := h
    simp [applyEntry, h1, h2, h3, h4, h5, h6, h7, h8, h9, h10, h11, h12, h13,
      h14, h15, h16, h17, h18, h19, h20, h21]

/-- C8 witness: a concrete template round-trip and a concrete ignored
unknown key. -/
theorem c8_template_roundtrip_witness :
    load_template (save_template (fun _ => none) "t1" cfgHalf) "t1" = some cfgHalf ∧
    applyEntry {} ("color_profile", JValue.num 3) = {} :=
  ⟨c8_template_roundtrip.1 (fun _ => none) "t1" cfgHalf,
   c8_template_roundtrip.2.2.2.2.2.2 {} "color_profile" (JValue.num 3) (by decide)⟩

/-- C9: exporting an RGBA image as JPEG flattens it onto opaque white
using its alpha as blend mask into a 3-channel RGB image — pixels with
source alpha 0 come out pure white; PNG export preserves the image, alpha
channel included; a failing save is reported as `false` instead of
raising. -/
theorem c9_export (env : Env) (img : Image) (q : ℤ) (h : img.mode = Mode.RGBA) :
    (env.saveOk = true →
      export_image env img jpegStr q none = (true, some (flattenWhite img)) ∧
      (flattenWhite img).mode = Mode.RGB ∧
      (∀ x y, (img.px x y).a = 0 →
        (flattenWhite img).px x y = ⟨255, 255, 255, 255⟩)) ∧
    (env.saveOk = false → export_image env img jpegStr q none = (false, none)) ∧
    (env.saveOk = true → export_image env img pngStr q none = (true, some img)) := by
  have hj : pyUpper jpegStr = "JPEG" := by decide
  have hp2 : ¬ (pyUpper pngStr = "JPEG") := by decide
  refine ⟨?_, ?_, ?_⟩
  · intro hsave
    refine ⟨?_, rfl, ?_⟩
    · simp [export_image, hj, h, hsave]
    · intro x y ha
      simp [flattenWhite, ha, blend255_mask_zero]
  · intro hsave
    simp [export_image, hj, h, hsave]
  · intro hsave
    simp [export_image, hp2, h, hsave]

/-- C9 witness: a concrete PNG export preserving the RGBA image. -/
theorem c9_export_witness :
    export_image env0 imgO pngStr 90 none = (true, some imgO) :=
  (c9_export env0 imgO 90 rfl).2.2 rfl

unseal Rat.mul Rat.add Rat.inv Rat.sub in
/-- C10 counterexample: the text path can raise (the negative rotation
temp canvas of C6), so at rotation 180° with a large measured text
`process_image` returns nothing rather than an image of the source's
size. -/
theorem c10_counterexample : process_image envBig imgT cfgRot = none := by
  have h : (process_image envBig imgT cfgRot).isSome = false := by decide
  cases hp : process_image envBig imgT cfgRot with
  | none => rfl
  | some r =>
    rw [hp] at h
    cases h

/-- C10 (amended): whenever `process_image` returns an image — on the
text path, the image path, or the no-watermark fallback — that image has
exactly the source's width and height; watermark content past the canvas
is clipped rather than enlarging the output. -/
theorem c10_dims (env : Env) (img : Image) (cfg : WatermarkConfig) :
    ∀ out : Image, process_image env img cfg = some out →
      out.width = img.width ∧ out.height = img.height := by
  intro out h
  unfold process_image at h
  split at h
  · obtain ⟨r, hr, rfl⟩ := Option.map_eq_some'.mp h
    obtain ⟨a, _, rfl⟩ := Option.map_eq_some'.mp hr
    exact ⟨rfl, rfl⟩
  · split at h
    · simp only [Option.some.injEq] at h
      subst h
      rcases add_image_watermark_spec env img cfg with hsp | ⟨wm3, hsp⟩ <;>
        rw [hsp] <;> exact ⟨rfl, rfl⟩
    · simp only [Option.some.injEq] at h
      subst h
      exact ⟨rfl, rfl⟩

/-- C10 witness: the amended claim at a concrete successful render. -/
theorem c10_dims_witness :
    ((process_image env0 imgO cfgZ).getD imgT).width = imgO.width ∧
    ((process_image env0 imgO cfgZ).getD imgT).height = imgO.height :=
  c10_dims env0 imgO cfgZ _ (option_eq_some_getD _ imgT (by decide))

end PhotoWatermark
